import Mathlib

/-!
Verification of the filter-api service (`src/main.py`): per-category
threshold filters, the position-based duplicate resolver, the consistency
validator and the per-page orchestrator.

Modelling choices (shallow embedding):
* Python floats are modelled by `ℚ` (the logic only compares and copies
  them; no float-specific rounding is exercised by the filters).
* A Python position dict is modelled by `Option Pos`: `none` stands for a
  falsy position (`None`, key absent, or the empty dict `{}`), and
  `some p` for a truthy dict with the `"x"`/`"y"` lookups (default 0)
  already resolved.
* The open `properties` mapping of a wall is modelled as an association
  list `List (String × ℚ)`; Python's `dict.get(k, 0)` becomes an
  association-list lookup with default `0`, and dict truthiness becomes
  "present and non-empty".
* The Pydantic models carry several optional metadata fields
  (`label_code`, `label_nl`, ...) that the filtering logic never reads;
  they are omitted from the records here.
* Diagnostic strings are modelled by an inductive `Diag` carrying the
  interpolated data, side-stepping Python float formatting, which no
  claim depends on.
-/

namespace FilterApi

/-- `MIN_WALL_LENGTH = 0.1` (meters). -/
def MIN_WALL_LENGTH : ℚ := mkRat 1 10

/-- `MIN_WALL_THICKNESS = 0.005` (meters). -/
def MIN_WALL_THICKNESS : ℚ := mkRat 5 1000

/-- `MIN_ROOM_AREA = 0.1` (m²). -/
def MIN_ROOM_AREA : ℚ := mkRat 1 10

/-- `MIN_COMPONENT_CONFIDENCE = 0.3`. -/
def MIN_COMPONENT_CONFIDENCE : ℚ := mkRat 3 10

/-- `MIN_SYMBOL_CONFIDENCE = 0.3`. -/
def MIN_SYMBOL_CONFIDENCE : ℚ := mkRat 3 10

/-- `MIN_TEXT_SIZE = 6` (points). -/
def MIN_TEXT_SIZE : ℚ := 6

/-- `MAX_TEXT_LENGTH = 50` (characters). -/
def MAX_TEXT_LENGTH : Nat := 50

/-- A resolved `{x, y}` position dict. -/
structure Pos where
  x : ℚ
  y : ℚ
deriving DecidableEq

/-- The `Wall` model: only the fields the filtering logic reads. -/
structure Wall where
  type : String
  thickness_meters : Option ℚ := none
  properties : Option (List (String × ℚ)) := none
  wall_type : Option String := none
  confidence : Option ℚ := none
deriving DecidableEq

/-- The `Room` model: only the fields the filtering logic reads. -/
structure Room where
  name : String
  room_type : Option String := none
  area_m2 : ℚ
  polygon : List Pos := []
  confidence : ℚ := 1
  reason : String := ""
deriving DecidableEq

/-- The `Component` model: only the fields the filtering logic reads. -/
structure Component where
  type : String
  position : Option Pos := none
  confidence : ℚ
  reason : String := ""
deriving DecidableEq

/-- The `Symbol` model: only the fields the filtering logic reads. -/
structure Symbol where
  type : String
  position : Option Pos := none
  confidence : ℚ
  reason : String := ""
deriving DecidableEq

/-- The `TextItem` model: only the fields the filtering logic reads. -/
structure TextItem where
  text : String
  font_size : ℚ
  font_name : String := ""
deriving DecidableEq

/-- The `PageData` model: only the fields the filtering logic reads
(`page_number` and `texts`; `drawings`/`page_size` are never consumed). -/
structure PageData where
  page_number : Int
  texts : List TextItem := []
deriving DecidableEq

/-- Python truthiness of an optional dict: `None` and `{}` are falsy. -/
def dictTruthy (d : Option (List (String × ℚ))) : Bool :=
  match d with
  | none => false
  | some l => !l.isEmpty

/-- `wall.properties.get("length_meters", 0)` — association-list lookup
with default `0` (on a missing or `None` dict the lookup yields `0`). -/
def wall_length_getd (w : Wall) : ℚ :=
  (((w.properties.getD []).lookup "length_meters").getD 0)

/-- The present length attribute of a wall, if any. -/
def wall_length_attr (w : Wall) : Option ℚ :=
  (w.properties.getD []).lookup "length_meters"

/-- Python `wall.thickness_meters and wall.thickness_meters < MIN_WALL_THICKNESS`:
`None` and `0.0` are falsy, so only a present, nonzero, too-small thickness
triggers the drop. -/
def thickness_too_thin (w : Wall) : Bool :=
  match w.thickness_meters with
  | none => false
  | some t => decide (t ≠ 0 ∧ t < MIN_WALL_THICKNESS)

/-- Step 1 of `_filter_irrelevant_elements`: the wall loop. Each `continue`
of the source becomes an else-if branch; the two property checks of the
source are nested under `if wall.properties:`, rendered here as a
conjunction with `dictTruthy`. -/
def filter_walls : List Wall → List Wall
  | [] => []
  | wall :: rest =>
    if wall.type = "unknown" then filter_walls rest
    else if dictTruthy wall.properties ∧ wall_length_getd wall < MIN_WALL_LENGTH then
      filter_walls rest
    else if dictTruthy wall.properties ∧ thickness_too_thin wall then
      filter_walls rest
    else wall :: filter_walls rest

/-- Step 2 of `_filter_irrelevant_elements`: the room loop. -/
def filter_rooms : List Room → List Room
  | [] => []
  | room :: rest =>
    if room.name = "unknown" ∧ room.room_type = some "unknown" then filter_rooms rest
    else if room.area_m2 < MIN_ROOM_AREA then filter_rooms rest
    else room :: filter_rooms rest

/-- Step 3 of `_filter_irrelevant_elements`: the component loop. -/
def filter_components : List Component → List Component
  | [] => []
  | component :: rest =>
    if component.type = "unknown" then filter_components rest
    else if component.confidence < MIN_COMPONENT_CONFIDENCE then filter_components rest
    else component :: filter_components rest

/-- Step 4 of `_filter_irrelevant_elements`: the symbol loop. -/
def filter_symbols : List Symbol → List Symbol
  | [] => []
  | symbol :: rest =>
    if symbol.type = "unknown" then filter_symbols rest
    else if symbol.confidence < MIN_SYMBOL_CONFIDENCE then filter_symbols rest
    else symbol :: filter_symbols rest

/-- `text_content.replace(".", "").replace(",", "").replace(" ", "")`. -/
def strip_dims (s : String) : String :=
  ((s.replace "." "").replace "," "").replace " " ""

/-- Python `str.isdigit` (ASCII model): non-empty and all digit characters. -/
def py_isdigit (s : String) : Bool :=
  !s.isEmpty && s.all Char.isDigit

/-- Step 5 of `_filter_irrelevant_elements`: the text loop. -/
def filter_texts : List TextItem → List TextItem
  | [] => []
  | text :: rest =>
    if (text.text.trim).isEmpty then filter_texts rest
    else if text.font_size < MIN_TEXT_SIZE then filter_texts rest
    else if (text.text.trim).length > MAX_TEXT_LENGTH then filter_texts rest
    else if py_isdigit (strip_dims (text.text.trim)) then filter_texts rest
    else text :: filter_texts rest

/-! ### Duplicate resolver

`_remove_duplicate_symbols` and `_remove_duplicate_components` are
line-for-line identical up to the entity type; they are embedded as one
function parameterised by the position and confidence accessors and
instantiated twice. The Python `position_groups` dict (insertion-ordered,
keyed by the seed position tuple, valued by the member list) is modelled
as a `List (Pos × List α)` in insertion order; key collisions are
impossible because an entry at an existing key would have joined that
group (`|Δx| = |Δy| = 0 < tolerance`). -/

/-- `tolerance = 10` (pixels). -/
def tolerance : ℚ := 10

/-- The group-membership test of the source:
`abs(x - gx) < tolerance and abs(y - gy) < tolerance`. -/
def close_pos (p gp : Pos) : Bool :=
  decide (|p.x - gp.x| < tolerance ∧ |p.y - gp.y| < tolerance)

/-- The inner `for group_pos, group in position_groups.items()` scan:
append the entry to the first group whose key is close, else add a new
group at the end (dict insertion order). -/
def insert_into_groups (p : Pos) (a : α) : List (Pos × List α) → List (Pos × List α)
  | [] => [(p, [a])]
  | (gp, g) :: rest =>
    if close_pos p gp then (gp, g ++ [a]) :: rest
    else (gp, g) :: insert_into_groups p a rest

/-- The outer `for symbol in symbols` loop building `position_groups`;
entries with a falsy position are skipped (and thereby never reach the
output). -/
def build_groups (pos : α → Option Pos) : List α → List (Pos × List α) → List (Pos × List α)
  | [], groups => groups
  | a :: rest, groups =>
    match pos a with
    | none => build_groups pos rest groups
    | some p => build_groups pos rest (insert_into_groups p a groups)

/-- Python `max(group, key=conf)` starting from a first element: replaces
the running best only on a strictly greater key, so the first maximal
element wins. -/
def max_by_conf (conf : α → ℚ) (a : α) : List α → α
  | [] => a
  | b :: rest => max_by_conf conf (if conf a < conf b then b else a) rest

/-- Python `max(group, key=conf)` on a possibly-empty list. -/
def py_max_by (conf : α → ℚ) : List α → Option α
  | [] => none
  | a :: rest => some (max_by_conf conf a rest)

/-- The per-group selection: `if len(group) > 1: append(max(...)) else
extend(group)`. -/
def select_group (conf : α → ℚ) (g : List α) : List α :=
  if 1 < g.length then (py_max_by conf g).toList else g

/-- The common body of `_remove_duplicate_symbols` /
`_remove_duplicate_components` (the `if not items: return []` early
return coincides with the general path on `[]`). -/
def dedup_by_position (pos : α → Option Pos) (conf : α → ℚ) (items : List α) : List α :=
  ((build_groups pos items []).map (fun g => select_group conf g.2)).flatten

/-- `_remove_duplicate_symbols`. -/
def remove_duplicate_symbols (symbols : List Symbol) : List Symbol :=
  dedup_by_position Symbol.position Symbol.confidence symbols

/-- `_remove_duplicate_components`. -/
def remove_duplicate_components (components : List Component) : List Component :=
  dedup_by_position Component.position Component.confidence components

/-! ### Consistency validator and page orchestrator -/

/-- A diagnostic message of `_validate_data_consistency`, carrying the
interpolated data instead of the formatted string. -/
inductive Diag where
  | componentNoWallRef (ctype : String)
  | roomInvalidPolygon (name : String)
  | roomSuspiciouslyLarge (name : String) (area : ℚ)
  | noExteriorWalls
deriving DecidableEq

/-- `_validate_data_consistency`. Note the `Component` model declares no
`wall_reference` field, so `component.get("wall_reference")` on a
`component.dict()` is always `None`: every door/window/sliding_door
component triggers the check-1 diagnostic. The `symbols` argument is
accepted and never read, as in the source. -/
def validate_data_consistency (walls : List Wall) (rooms : List Room)
    (components : List Component) (_symbols : List Symbol) : List Diag :=
  let errs1 := (components.filter
      (fun c => c.type = "door" ∨ c.type = "window" ∨ c.type = "sliding_door")).map
    (fun c => Diag.componentNoWallRef c.type)
  let errs2 := rooms.flatMap (fun r =>
    (if r.polygon.length < 3 then [Diag.roomInvalidPolygon r.name] else []) ++
    (if r.area_m2 > 1000 then [Diag.roomSuspiciouslyLarge r.name r.area_m2] else []))
  let errs3 :=
    if (walls.filter (fun w => w.wall_type = some "exterior")).length = 0 ∧ 5 < walls.length
    then [Diag.noExteriorWalls] else []
  errs1 ++ errs2 ++ errs3

/-- The per-page bundle returned by `_filter_irrelevant_elements`. -/
structure FilteredBundle where
  walls : List Wall
  rooms : List Room
  components : List Component
  symbols : List Symbol
  unlinked_texts : List TextItem
  errors : List Diag
deriving DecidableEq

/-- `_filter_irrelevant_elements`: the five threshold filters in order,
then the validator (on the pre-dedup lists, as in the source), then the
duplicate resolver over symbols and components. The `scale` argument is
accepted and never applied, as in the source. -/
def filter_irrelevant_elements (page_data : PageData) (walls : List Wall)
    (rooms : List Room) (components : List Component) (symbols : List Symbol)
    (_scale : ℚ) : FilteredBundle :=
  let filtered_walls := filter_walls walls
  let filtered_rooms := filter_rooms rooms
  let filtered_components := filter_components components
  let filtered_symbols := filter_symbols symbols
  let unlinked_texts := filter_texts page_data.texts
  let errors := validate_data_consistency filtered_walls filtered_rooms
    filtered_components filtered_symbols
  { walls := filtered_walls
    rooms := filtered_rooms
    components := remove_duplicate_components filtered_components
    symbols := remove_duplicate_symbols filtered_symbols
    unlinked_texts := unlinked_texts
    errors := errors }

/-- The request body of `POST /filter-data/`. -/
structure FilterRequest where
  pages : List PageData
  walls : List (List Wall) := []
  rooms : List (List Room) := []
  components : List (List Component) := []
  symbols : List (List Symbol) := []
  scale_m_per_pixel : ℚ := 1
deriving DecidableEq

/-- One entry of the response's `pages` list. -/
structure PageResult where
  page_number : Int
  walls : List Wall
  rooms : List Room
  components : List Component
  symbols : List Symbol
  unlinked_texts : List TextItem
  errors : List Diag
deriving DecidableEq

/-- The page loop of `filter_data`, carrying the running index `i`:
`request.walls[i] if i < len(request.walls) else []` is `List.getD i []`,
and likewise for the other three category arrays. -/
def filter_pages (req : FilterRequest) (i : Nat) : List PageData → List PageResult
  | [] => []
  | page_data :: rest =>
    let filtered := filter_irrelevant_elements page_data
      (req.walls.getD i []) (req.rooms.getD i []) (req.components.getD i [])
      (req.symbols.getD i []) req.scale_m_per_pixel
    { page_number := page_data.page_number
      walls := filtered.walls
      rooms := filtered.rooms
      components := filtered.components
      symbols := filtered.symbols
      unlinked_texts := filtered.unlinked_texts
      errors := filtered.errors } :: filter_pages req (i + 1) rest

/-- `filter_data`: one result per page, in input order. -/
def filter_data (req : FilterRequest) : List PageResult :=
  filter_pages req 0 req.pages

/-! ### Claim-side predicates and specifications

The following definitions are phrased from the spec's/claims' wording, to
be compared with the source-derived functions above. -/

/-- Room survival in the words of the spec: a room is dropped iff its name
and its room-type are both `"unknown"`, or its area is below
`MIN_ROOM_AREA`. -/
def room_survives (r : Room) : Bool :=
  decide (¬(r.name = "unknown" ∧ r.room_type = some "unknown") ∧
    ¬(r.area_m2 < MIN_ROOM_AREA))

/-- Text survival in the words of the spec: a text is dropped iff its
trimmed text is empty, its font size is below 6, the trimmed text is
longer than 50 characters, or the trimmed text with every `'.'`, `','`
and space removed consists only of digits. -/
def text_survives (t : TextItem) : Bool :=
  decide (¬(t.text.trim.isEmpty = true) ∧ ¬(t.font_size < MIN_TEXT_SIZE) ∧
    ¬(t.text.trim.length > MAX_TEXT_LENGTH) ∧
    ¬(py_isdigit (strip_dims t.text.trim) = true))

/-- The keep-predicate implied by the source's wall loop (helper for the
filter characterization lemmas). -/
def wall_kept (w : Wall) : Bool :=
  decide (¬(w.type = "unknown") ∧
    ¬(dictTruthy w.properties = true ∧ wall_length_getd w < MIN_WALL_LENGTH) ∧
    ¬(dictTruthy w.properties = true ∧ thickness_too_thin w = true))

/-- The keep-predicate implied by the source's component loop. -/
def component_kept (c : Component) : Bool :=
  decide (¬(c.type = "unknown") ∧ ¬(c.confidence < MIN_COMPONENT_CONFIDENCE))

/-- The keep-predicate implied by the source's symbol loop. -/
def symbol_kept (s : Symbol) : Bool :=
  decide (¬(s.type = "unknown") ∧ ¬(s.confidence < MIN_SYMBOL_CONFIDENCE))

/-- The tolerance box in the words of the claim: `|Δx| < 10` and
`|Δy| < 10`, both axes independently. -/
def spec_near (p q : Pos) : Bool :=
  decide (|p.x - q.x| < 10 ∧ |p.y - q.y| < 10)

/-- One resolver step in the words of the claim: a positioned entry joins
the first existing group — scanned in group-creation order — whose frozen
seed point is within the tolerance box; if none matches, a new group is
opened at this entry's position. Entries without a position leave the
group state unchanged. -/
def spec_step (pos : α → Option Pos) (groups : List (Pos × List α)) (a : α) :
    List (Pos × List α) :=
  match pos a with
  | none => groups
  | some p =>
    match groups.findIdx? (fun g => spec_near p g.1) with
    | some i =>
      match groups[i]? with
      | some g => groups.set i (g.1, g.2 ++ [a])
      | none => groups
    | none => groups ++ [(p, [a])]

/-- Greedy group assignment in the words of the claim: entries are
processed in input order. -/
def spec_assign (pos : α → Option Pos) (items : List α) : List (Pos × List α) :=
  items.foldl (spec_step pos) []

/-- Group selection in the words of the claim: the first member (in scan
order) whose confidence is maximal in its group. -/
def spec_best (conf : α → ℚ) (g : List α) : Option α :=
  g.find? (fun a => decide (∀ b ∈ g, conf b ≤ conf a))

/-- The duplicate resolver in the words of the claim: greedy first-fit
assignment, then from each group of more than one member exactly the
first maximum-confidence member survives, while size-one groups are kept
as-is. -/
def spec_resolve (pos : α → Option Pos) (conf : α → ℚ) (items : List α) : List α :=
  (spec_assign pos items).flatMap
    (fun g => if 1 < g.2.length then (spec_best conf g.2).toList else g.2)

/-! ### Concrete example records used by the witnesses and counterexamples -/

/-- A position-less symbol that passes all threshold filters. -/
def symEx1 : Symbol := { type := "radiator", confidence := mkRat 9 10 }

/-- A position-less component that passes all threshold filters. -/
def compEx1 : Component := { type := "door", confidence := mkRat 9 10 }

/-- A known-type wall whose non-empty properties mapping lacks the
`length_meters` key. -/
def wallEx2 : Wall := { type := "wall", properties := some [("width_meters", 2)] }

/-- A known-type wall with absent properties and a present thickness of
`0.001`, below `MIN_WALL_THICKNESS`. -/
def wallEx3 : Wall := { type := "wall", thickness_meters := some (mkRat 1 1000) }

/-- A wall passing every wall rule (length `2`, thickness `0.01`). -/
def wallEx3b : Wall :=
  { type := "wall", properties := some [("length_meters", 2)],
    thickness_meters := some (mkRat 1 100) }

/-- A component passing both component rules. -/
def compEx5 : Component := { type := "door", confidence := mkRat 1 2 }

/-- A known-type wall with a passing length and a present thickness of
exactly `0`. -/
def wallEx10 : Wall :=
  { type := "wall", properties := some [("length_meters", 2)],
    thickness_meters := some 0 }

/-- A 2-page request whose parallel category arrays hold entries for the
first page only (`walls` has one entry, the other arrays are empty). -/
def reqEx9 : FilterRequest :=
  { pages := [{ page_number := 1 }, { page_number := 2 }],
    walls := [[{ type := "wall" }]] }

/-! ### Filter characterization lemmas -/

theorem filter_walls_eq_filter (l : List Wall) : filter_walls l = l.filter wall_kept := by
  induction l with
  | nil => rfl
  | cons w rest ih =>
    simp only [filter_walls, List.filter_cons, wall_kept]
    by_cases h1 : w.type = "unknown"
    · simp [h1, ih]
    · by_cases h2 : dictTruthy w.properties = true ∧ wall_length_getd w < MIN_WALL_LENGTH
      · simp [h1, h2, ih]
      · by_cases h3 : dictTruthy w.properties = true ∧ thickness_too_thin w = true
        · simp [h1, h2, h3, ih]
        · simp [h1, h2, h3, ih]

theorem filter_rooms_eq_filter (l : List Room) : filter_rooms l = l.filter room_survives := by
  induction l with
  | nil => rfl
  | cons r rest ih =>
    simp only [filter_rooms, List.filter_cons, room_survives]
    by_cases h1 : r.name = "unknown" ∧ r.room_type = some "unknown"
    · simp [h1, ih]
    · by_cases h2 : r.area_m2 < MIN_ROOM_AREA
      · simp [h1, h2, ih]
      · simp [h1, h2, ih]

theorem filter_components_eq_filter (l : List Component) :
    filter_components l = l.filter component_kept := by
  induction l with
  | nil => rfl
  | cons c rest ih =>
    simp only [filter_components, List.filter_cons, component_kept]
    by_cases h1 : c.type = "unknown"
    · simp [h1, ih]
    · by_cases h2 : c.confidence < MIN_COMPONENT_CONFIDENCE
      · simp [h1, h2, ih]
      · simp [h1, h2, ih]

theorem filter_symbols_eq_filter (l : List Symbol) :
    filter_symbols l = l.filter symbol_kept := by
  induction l with
  | nil => rfl
  | cons s rest ih =>
    simp only [filter_symbols, List.filter_cons, symbol_kept]
    by_cases h1 : s.type = "unknown"
    · simp [h1, ih]
    · by_cases h2 : s.confidence < MIN_SYMBOL_CONFIDENCE
      · simp [h1, h2, ih]
      · simp [h1, h2, ih]

theorem filter_texts_eq_filter (l : List TextItem) :
    filter_texts l = l.filter text_survives := by
  induction l with
  | nil => rfl
  | cons t rest ih =>
    simp only [filter_texts, List.filter_cons, text_survives]
    by_cases h1 : t.text.trim.isEmpty = true
    · simp [h1, ih]
    · by_cases h2 : t.font_size < MIN_TEXT_SIZE
      · simp [h1, h2, ih]
      · by_cases h3 : t.text.trim.length > MAX_TEXT_LENGTH
        · simp [h1, h2, h3, ih]
        · by_cases h4 : py_isdigit (strip_dims t.text.trim) = true
          · simp [h1, h2, h3, h4, ih]
          · simp [h1, h2, h3, h4, ih]

theorem length_attr_some {w : Wall} {L : ℚ} (h : wall_length_attr w = some L) :
    dictTruthy w.properties = true ∧ wall_length_getd w = L := by
  cases hp : w.properties with
  | none => simp [wall_length_attr, hp] at h
  | some l =>
    simp only [wall_length_attr, hp, Option.getD_some] at h
    constructor
    · cases l with
      | nil => simp at h
      | cons x xs => simp [dictTruthy, hp]
    · simp [wall_length_getd, hp, h]

/-! ### Properties of the Python `max(group, key=confidence)` fold -/

theorem max_by_mem (conf : α → ℚ) : ∀ (t : List α) (a : α), max_by_conf conf a t ∈ a :: t := by
  intro t
  induction t with
  | nil => intro a; simp [max_by_conf]
  | cons c t' ih =>
    intro a
    simp only [max_by_conf]
    by_cases h : conf a < conf c
    · simp only [if_pos h]
      rcases List.mem_cons.1 (ih c) with h1 | h1
      · simp [h1]
      · simp [List.mem_cons, h1]
    · simp only [if_neg h]
      rcases List.mem_cons.1 (ih a) with h1 | h1
      · simp [h1]
      · simp [List.mem_cons, h1]

theorem max_by_le (conf : α → ℚ) :
    ∀ (t : List α) (a b : α), b ∈ a :: t → conf b ≤ conf (max_by_conf conf a t) := by
  intro t
  induction t with
  | nil =>
    intro a b hb
    rcases List.mem_cons.1 hb with h | h
    · subst h; simp [max_by_conf]
    · simp at h
  | cons c t' ih =>
    intro a b hb
    simp only [max_by_conf]
    by_cases h : conf a < conf c
    · simp only [if_pos h]
      rcases List.mem_cons.1 hb with h1 | h1
      · subst h1
        exact le_trans (le_of_lt h) (ih c c (List.mem_cons_self c t'))
      · exact ih c b h1
    · simp only [if_neg h]
      rcases List.mem_cons.1 hb with h1 | h1
      · rw [h1]; exact ih a a (List.mem_cons_self a t')
      · rcases List.mem_cons.1 h1 with h2 | h2
        · rw [h2]
          exact le_trans (le_of_not_lt h) (ih a a (List.mem_cons_self a t'))
        · exact ih a b (List.mem_cons_of_mem a h2)

theorem max_by_eq_seed (conf : α → ℚ) :
    ∀ (t : List α) (a : α), conf (max_by_conf conf a t) ≤ conf a → max_by_conf conf a t = a := by
  intro t
  induction t with
  | nil => intro a _; rfl
  | cons c t' ih =>
    intro a h
    simp only [max_by_conf] at h ⊢
    by_cases hc : conf a < conf c
    · simp only [if_pos hc] at h ⊢
      have hcle : conf c ≤ conf (max_by_conf conf c t') :=
        max_by_le conf t' c c (List.mem_cons_self c t')
      exact absurd (lt_of_lt_of_le hc (le_trans hcle h)) (lt_irrefl _)
    · simp only [if_neg hc] at h ⊢
      exact ih a h

theorem max_by_seed_swap (conf : α → ℚ) :
    ∀ (t : List α) (s s' : α), conf s' ≤ conf s →
      max_by_conf conf s t = max_by_conf conf s' t ∨ max_by_conf conf s t = s := by
  intro t
  induction t with
  | nil => intro s s' _; right; rfl
  | cons c t' ih =>
    intro s s' hss
    simp only [max_by_conf]
    by_cases h1 : conf s < conf c
    · have h2 : conf s' < conf c := lt_of_le_of_lt hss h1
      simp [if_pos h1, if_pos h2]
    · simp only [if_neg h1]
      by_cases h2 : conf s' < conf c
      · simp only [if_pos h2]
        exact ih s c (le_of_not_lt h1)
      · simp only [if_neg h2]
        exact ih s s' hss

theorem find?_ge_max_by (conf : α → ℚ) :
    ∀ (t : List α) (a : α),
      List.find? (fun x => decide (conf (max_by_conf conf a t) ≤ conf x)) (a :: t)
        = some (max_by_conf conf a t) := by
  intro t
  induction t with
  | nil =>
    intro a
    simp [max_by_conf]
  | cons c t' ih =>
    intro a
    by_cases h1 : conf a < conf c
    · have hdef : max_by_conf conf a (c :: t') = max_by_conf conf c t' := by
        simp [max_by_conf, if_pos h1]
      rw [hdef]
      have hlt : conf a < conf (max_by_conf conf c t') :=
        lt_of_lt_of_le h1 (max_by_le conf t' c c (List.mem_cons_self c t'))
      rw [List.find?_cons_of_neg _ (by simpa using not_le_of_lt hlt)]
      exact ih c
    · have hdef : max_by_conf conf a (c :: t') = max_by_conf conf a t' := by
        simp [max_by_conf, if_neg h1]
      rw [hdef]
      by_cases h2 : conf (max_by_conf conf a t') ≤ conf a
      · rw [List.find?_cons_of_pos _ (by simpa using h2)]
        exact congrArg some (max_by_eq_seed conf t' a h2).symm
      · have hlt : conf a < conf (max_by_conf conf a t') := lt_of_not_le h2
        rw [List.find?_cons_of_neg _ (by simpa using h2)]
        rcases max_by_seed_swap conf t' a c (le_of_not_lt h1) with hsw | hsw
        · rw [hsw]; exact ih c
        · rw [hsw] at hlt; exact absurd hlt (lt_irrefl _)

theorem find?_congr_on (p q : α → Bool) :
    ∀ (l : List α), (∀ x ∈ l, p x = q x) → l.find? p = l.find? q := by
  intro l
  induction l with
  | nil => intro _; rfl
  | cons a t ih =>
    intro h
    cases hp : p a with
    | true =>
      rw [List.find?_cons_of_pos _ hp,
        List.find?_cons_of_pos _ ((h a (List.mem_cons_self a t)).symm.trans hp)]
    | false =>
      rw [List.find?_cons_of_neg _ (by simp [hp]),
        List.find?_cons_of_neg _ (by simp [← h a (List.mem_cons_self a t), hp])]
      exact ih (fun x hx => h x (List.mem_cons_of_mem a hx))

theorem py_max_eq_spec_best (conf : α → ℚ) (g : List α) :
    py_max_by conf g = spec_best conf g := by
  cases g with
  | nil => rfl
  | cons a t =>
    have hcong :
        List.find? (fun x => decide (∀ b ∈ a :: t, conf b ≤ conf x)) (a :: t)
          = List.find? (fun x => decide (conf (max_by_conf conf a t) ≤ conf x)) (a :: t) := by
      apply find?_congr_on
      intro x _
      apply decide_eq_decide.2
      constructor
      · intro hall
        exact hall (max_by_conf conf a t) (max_by_mem conf t a)
      · intro hle b hb
        exact le_trans (max_by_le conf t a b hb) hle
    simp only [py_max_by, spec_best, hcong, find?_ge_max_by]

/-! ### The resolver's grouping: source scan vs index-based spec -/

theorem spec_near_eq_close_pos : @spec_near = @close_pos := rfl

theorem insert_eq_set (p : Pos) (a : α) :
    ∀ (gs : List (Pos × List α)),
      insert_into_groups p a gs =
        match gs.findIdx? (fun g => close_pos p g.1) with
        | some i =>
          match gs[i]? with
          | some g => gs.set i (g.1, g.2 ++ [a])
          | none => gs
        | none => gs ++ [(p, [a])] := by
  intro gs
  induction gs with
  | nil => rfl
  | cons hd tl ih =>
    obtain ⟨gp, gl⟩ := hd
    by_cases hc : close_pos p gp = true
    · simp [insert_into_groups, hc]
    · cases hf : List.findIdx? (fun g => close_pos p g.1) tl with
      | none =>
        rw [hf] at ih
        simp only [insert_into_groups, if_neg hc, ih]
        simp [List.findIdx?_cons, hc, List.findIdx?_succ, hf]
      | some i =>
        rw [hf] at ih
        simp only [insert_into_groups, if_neg hc, ih]
        simp only [List.findIdx?_cons, hc, Bool.false_eq_true, if_false,
          List.findIdx?_succ, hf, Option.map_some', List.getElem?_cons_succ,
          List.set_cons_succ]
        cases hgi : tl[i]? with
        | none => simp
        | some g => simp

theorem spec_step_of_none (pos : α → Option Pos) (acc : List (Pos × List α)) (a : α)
    (h : pos a = none) : spec_step pos acc a = acc := by
  simp [spec_step, h]

theorem spec_step_of_some (pos : α → Option Pos) (acc : List (Pos × List α)) (a : α)
    (p : Pos) (h : pos a = some p) : spec_step pos acc a = insert_into_groups p a acc := by
  simp only [spec_step, h, spec_near_eq_close_pos]
  exact (insert_eq_set p a acc).symm

theorem build_groups_eq_foldl (pos : α → Option Pos) :
    ∀ (items : List α) (acc : List (Pos × List α)),
      build_groups pos items acc = items.foldl (spec_step pos) acc := by
  intro items
  induction items with
  | nil => intro acc; rfl
  | cons a rest ih =>
    intro acc
    cases hp : pos a with
    | none =>
      simp only [build_groups, hp, List.foldl_cons, spec_step_of_none pos acc a hp]
      exact ih acc
    | some p =>
      simp only [build_groups, hp, List.foldl_cons, spec_step_of_some pos acc a p hp]
      exact ih _

theorem select_group_eq_spec (conf : α → ℚ) (g : List α) :
    select_group conf g = if 1 < g.length then (spec_best conf g).toList else g := by
  simp only [select_group, py_max_eq_spec_best]

theorem dedup_eq_spec_resolve (pos : α → Option Pos) (conf : α → ℚ) (items : List α) :
    dedup_by_position pos conf items = spec_resolve pos conf items := by
  simp only [dedup_by_position, spec_resolve, spec_assign, List.flatMap_def,
    build_groups_eq_foldl, select_group_eq_spec]

/-! ### Membership lemmas for the resolver -/

theorem exists_mem_insert {x : α} {p : Pos} {a : α} :
    ∀ {gs : List (Pos × List α)}, (∃ g ∈ insert_into_groups p a gs, x ∈ g.2) →
      x = a ∨ ∃ g ∈ gs, x ∈ g.2 := by
  intro gs
  induction gs with
  | nil =>
    intro h
    rcases h with ⟨g, hg, hx⟩
    simp only [insert_into_groups, List.mem_singleton] at hg
    subst hg
    rcases List.mem_singleton.1 hx with h
    left; exact h
  | cons hd tl ih =>
    obtain ⟨gp, gl⟩ := hd
    intro h
    rcases h with ⟨g, hg, hx⟩
    simp only [insert_into_groups] at hg
    by_cases hc : close_pos p gp = true
    · rw [if_pos hc] at hg
      rcases List.mem_cons.1 hg with h1 | h1
      · subst h1
        rcases List.mem_append.1 hx with h2 | h2
        · right; exact ⟨(gp, gl), List.mem_cons_self _ _, h2⟩
        · left; exact List.mem_singleton.1 h2
      · right; exact ⟨g, List.mem_cons_of_mem _ h1, hx⟩
    · rw [if_neg hc] at hg
      rcases List.mem_cons.1 hg with h1 | h1
      · subst h1
        right; exact ⟨(gp, gl), List.mem_cons_self _ _, hx⟩
      · rcases ih ⟨g, h1, hx⟩ with h2 | ⟨g0, hg0, hx0⟩
        · left; exact h2
        · right; exact ⟨g0, List.mem_cons_of_mem _ hg0, hx0⟩

theorem exists_mem_build {x : α} (pos : α → Option Pos) :
    ∀ (items : List α) (acc : List (Pos × List α)),
      (∃ g ∈ build_groups pos items acc, x ∈ g.2) →
      (∃ g ∈ acc, x ∈ g.2) ∨ x ∈ items := by
  intro items
  induction items with
  | nil =>
    intro acc h
    simp only [build_groups] at h
    left; exact h
  | cons a rest ih =>
    intro acc h
    cases hp : pos a with
    | none =>
      simp only [build_groups, hp] at h
      rcases ih acc h with h1 | h1
      · left; exact h1
      · right; exact List.mem_cons_of_mem a h1
    | some p =>
      simp only [build_groups, hp] at h
      rcases ih _ h with h1 | h1
      · rcases exists_mem_insert h1 with h2 | h2
        · right; rw [h2]; exact List.mem_cons_self a rest
        · left; exact h2
      · right; exact List.mem_cons_of_mem a h1

theorem mem_select_group {conf : α → ℚ} {g : List α} {x : α}
    (h : x ∈ select_group conf g) : x ∈ g := by
  simp only [select_group] at h
  by_cases hl : 1 < g.length
  · rw [if_pos hl] at h
    cases g with
    | nil => simp [py_max_by] at h
    | cons a t =>
      simp only [py_max_by, Option.toList_some, List.mem_singleton] at h
      subst h
      exact max_by_mem conf t a
  · rw [if_neg hl] at h
    exact h

theorem mem_dedup {x : α} (pos : α → Option Pos) (conf : α → ℚ) (items : List α)
    (h : x ∈ dedup_by_position pos conf items) : x ∈ items := by
  simp only [dedup_by_position, List.mem_flatten, List.mem_map] at h
  rcases h with ⟨l, ⟨g, hg, hl⟩, hx⟩
  subst hl
  rcases exists_mem_build pos items [] ⟨g, hg, mem_select_group hx⟩ with h1 | h1
  · simp at h1
  · exact h1

/-! ### Orchestrator lemmas -/

theorem filter_pages_length (req : FilterRequest) :
    ∀ (pages : List PageData) (i : Nat), (filter_pages req i pages).length = pages.length := by
  intro pages
  induction pages with
  | nil => intro i; rfl
  | cons page rest ih =>
    intro i
    simp only [filter_pages, List.length_cons, ih]

theorem filter_pages_short_arrays (req : FilterRequest) :
    ∀ (pages : List PageData) (i k : Nat), k < pages.length →
      (req.walls.length ≤ i + k →
        Option.map PageResult.walls (filter_pages req i pages)[k]? = some []) ∧
      (req.rooms.length ≤ i + k →
        Option.map PageResult.rooms (filter_pages req i pages)[k]? = some []) ∧
      (req.components.length ≤ i + k →
        Option.map PageResult.components (filter_pages req i pages)[k]? = some []) ∧
      (req.symbols.length ≤ i + k →
        Option.map PageResult.symbols (filter_pages req i pages)[k]? = some []) := by
  intro pages
  induction pages with
  | nil => intro i k hk; simp at hk
  | cons page rest ih =>
    intro i k hk
    cases k with
    | zero =>
      refine ⟨fun hlen => ?_, fun hlen => ?_, fun hlen => ?_, fun hlen => ?_⟩ <;>
        rw [Nat.add_zero] at hlen
      · simp [filter_pages, filter_irrelevant_elements, filter_walls,
          List.getElem?_eq_none hlen]
      · simp [filter_pages, filter_irrelevant_elements, filter_rooms,
          List.getElem?_eq_none hlen]
      · simp [filter_pages, filter_irrelevant_elements, filter_components,
          remove_duplicate_components, dedup_by_position, build_groups,
          List.getElem?_eq_none hlen]
      · simp [filter_pages, filter_irrelevant_elements, filter_symbols,
          remove_duplicate_symbols, dedup_by_position, build_groups,
          List.getElem?_eq_none hlen]
    | succ k' =>
      have hk' : k' < rest.length := Nat.lt_of_succ_lt_succ hk
      have ih' := ih (i + 1) k' hk'
      simp only [filter_pages, List.getElem?_cons_succ]
      exact ⟨fun h => ih'.1 (by omega), fun h => ih'.2.1 (by omega),
        fun h => ih'.2.2.1 (by omega), fun h => ih'.2.2.2 (by omega)⟩

/-! ### Claims -/

/-- C1 (code bug, refuting evaluation): the Duplicate Resolver does NOT
keep entries lacking a position. The grouping loop skips them
(`if not symbol.get("position"): continue`) and the output is assembled
from the groups alone, so a position-less entry — here one that passes
every threshold filter — vanishes from the resolver's output instead of
passing through ungrouped. -/
theorem resolver_drops_positionless_entries :
    remove_duplicate_symbols [symEx1] = [] ∧
    remove_duplicate_components [compEx1] = [] :=
  ⟨rfl, rfl⟩

/-- C2 (code bug, refuting evaluation): a wall of known type whose
non-empty properties mapping lacks the `length_meters` key is dropped by
the length rule, because `properties.get("length_meters", 0)` defaults to
`0 < MIN_WALL_LENGTH`. Absence of the attribute is thereby treated as
failure, contrary to the claim. -/
theorem wall_missing_length_dropped :
    filter_walls [wallEx2] = [] ∧ wallEx2.type ≠ "unknown" ∧
    wall_length_attr wallEx2 = none :=
  ⟨rfl, by decide, rfl⟩

/-- C3 (counterexample): the claimed invariant fails — a surviving wall
may carry a present thickness attribute below `MIN_WALL_THICKNESS`,
because the thickness rule is only evaluated under a truthy properties
mapping (and a zero thickness is skipped as falsy). -/
theorem wall_invariant_as_claimed_fails :
    ¬ (∀ (ws : List Wall), ∀ w ∈ filter_walls ws,
        w.type ≠ "unknown" ∧
        (∀ L, wall_length_attr w = some L → MIN_WALL_LENGTH ≤ L) ∧
        (∀ t, w.thickness_meters = some t → MIN_WALL_THICKNESS ≤ t)) := by
  intro h
  have hmem : wallEx3 ∈ filter_walls [wallEx3] := by decide
  have hth := (h [wallEx3] wallEx3 hmem).2.2 (mkRat 1 1000) rfl
  exact absurd hth (by decide)

/-- C3 (amended): every wall surviving the filter has type ≠ "unknown"
and any present length attribute is at least `MIN_WALL_LENGTH`; a present
thickness attribute is at least `MIN_WALL_THICKNESS` provided the
properties mapping is non-empty and the thickness is nonzero. -/
theorem surviving_wall_invariant (ws : List Wall) :
    ∀ w ∈ filter_walls ws,
      w.type ≠ "unknown" ∧
      (∀ L, wall_length_attr w = some L → MIN_WALL_LENGTH ≤ L) ∧
      (dictTruthy w.properties = true →
        ∀ t, w.thickness_meters = some t → t ≠ 0 → MIN_WALL_THICKNESS ≤ t) := by
  intro w hw
  rw [filter_walls_eq_filter] at hw
  have hk := (List.mem_filter.1 hw).2
  simp only [wall_kept, decide_eq_true_eq] at hk
  obtain ⟨h1, h2, h3⟩ := hk
  refine ⟨h1, ?_, ?_⟩
  · intro L hL
    by_contra hlt
    push_neg at hlt
    rcases length_attr_some hL with ⟨hdt, hval⟩
    exact h2 ⟨hdt, by rw [hval]; exact hlt⟩
  · intro hdt t ht hnz
    by_contra hlt
    push_neg at hlt
    refine h3 ⟨hdt, ?_⟩
    simp only [thickness_too_thin, ht, decide_eq_true_eq]
    exact ⟨hnz, hlt⟩

/-- Witness for the amended C3 at a concrete surviving wall. -/
theorem surviving_wall_invariant_witness :
    wallEx3b ∈ filter_walls [wallEx3b] ∧
    wallEx3b.type ≠ "unknown" ∧ MIN_WALL_LENGTH ≤ 2 ∧
    MIN_WALL_THICKNESS ≤ mkRat 1 100 := by
  have hmem : wallEx3b ∈ filter_walls [wallEx3b] := by decide
  have h := surviving_wall_invariant [wallEx3b] wallEx3b hmem
  exact ⟨hmem, h.1, h.2.1 2 rfl, h.2.2 (by decide) (mkRat 1 100) rfl (by decide)⟩

/-- C4: the Duplicate Resolver — applied identically to components and
symbols — equals its specification: each positioned entry, in input
order, joins the first existing group (scanned in group-creation order)
whose frozen seed point satisfies `|Δx| < 10` and `|Δy| < 10` on both
axes independently; if none matches a new group is opened at the entry's
position; and from each group of more than one member exactly the
maximum-confidence member survives (ties to the first in scan order),
while size-one groups are kept as-is. -/
theorem duplicate_resolver_matches_greedy_spec (syms : List Symbol) (comps : List Component) :
    remove_duplicate_symbols syms = spec_resolve Symbol.position Symbol.confidence syms ∧
    remove_duplicate_components comps = spec_resolve Component.position Component.confidence comps :=
  ⟨dedup_eq_spec_resolve _ _ _, dedup_eq_spec_resolve _ _ _⟩

/-- C5: every component/symbol surviving the threshold filter — and hence
every entry of the deduplicated final output — has confidence at least
`MIN_COMPONENT_CONFIDENCE`/`MIN_SYMBOL_CONFIDENCE` (0.3) and type ≠
"unknown". -/
theorem surviving_confidence_and_type (comps : List Component) (syms : List Symbol) :
    (∀ c ∈ filter_components comps,
      MIN_COMPONENT_CONFIDENCE ≤ c.confidence ∧ c.type ≠ "unknown") ∧
    (∀ c ∈ remove_duplicate_components (filter_components comps),
      MIN_COMPONENT_CONFIDENCE ≤ c.confidence ∧ c.type ≠ "unknown") ∧
    (∀ s ∈ filter_symbols syms,
      MIN_SYMBOL_CONFIDENCE ≤ s.confidence ∧ s.type ≠ "unknown") ∧
    (∀ s ∈ remove_duplicate_symbols (filter_symbols syms),
      MIN_SYMBOL_CONFIDENCE ≤ s.confidence ∧ s.type ≠ "unknown") := by
  have hc : ∀ c ∈ filter_components comps,
      MIN_COMPONENT_CONFIDENCE ≤ c.confidence ∧ c.type ≠ "unknown" := by
    intro c hmem
    rw [filter_components_eq_filter] at hmem
    have hk := (List.mem_filter.1 hmem).2
    simp only [component_kept, decide_eq_true_eq] at hk
    exact ⟨le_of_not_lt hk.2, hk.1⟩
  have hs : ∀ s ∈ filter_symbols syms,
      MIN_SYMBOL_CONFIDENCE ≤ s.confidence ∧ s.type ≠ "unknown" := by
    intro s hmem
    rw [filter_symbols_eq_filter] at hmem
    have hk := (List.mem_filter.1 hmem).2
    simp only [symbol_kept, decide_eq_true_eq] at hk
    exact ⟨le_of_not_lt hk.2, hk.1⟩
  exact ⟨hc, fun c hcc => hc c (mem_dedup _ _ _ hcc),
    hs, fun s hss => hs s (mem_dedup _ _ _ hss)⟩

/-- Witness for C5 at a concrete component surviving filter and dedup. -/
theorem surviving_confidence_and_type_witness :
    compEx5 ∈ filter_components [compEx5] ∧
    MIN_COMPONENT_CONFIDENCE ≤ compEx5.confidence ∧ compEx5.type ≠ "unknown" := by
  have hmem : compEx5 ∈ filter_components [compEx5] := by decide
  have h := (surviving_confidence_and_type [compEx5] []).1 compEx5 hmem
  exact ⟨hmem, h.1, h.2⟩

/-- C6: the room filter drops a room iff its name and its room-type are
both "unknown" or its area is below `MIN_ROOM_AREA`, and it preserves the
relative order of the survivors (it is the order-preserving `List.filter`
of the survival predicate, and its output is a sublist of the input). -/
theorem room_filter_drop_iff_and_order (rooms : List Room) :
    filter_rooms rooms = rooms.filter room_survives ∧
    (filter_rooms rooms).Sublist rooms := by
  refine ⟨filter_rooms_eq_filter rooms, ?_⟩
  rw [filter_rooms_eq_filter]
  exact List.filter_sublist rooms

/-- C7: the text filter drops a text iff its trimmed text is empty, its
font size is below `MIN_TEXT_SIZE`, its trimmed length exceeds
`MAX_TEXT_LENGTH`, or the trimmed text stripped of '.', ',' and spaces
consists only of digits; all other texts survive in original relative
order. -/
theorem text_filter_drop_iff_and_order (texts : List TextItem) :
    filter_texts texts = texts.filter text_survives ∧
    (filter_texts texts).Sublist texts := by
  refine ⟨filter_texts_eq_filter texts, ?_⟩
  rw [filter_texts_eq_filter]
  exact List.filter_sublist texts

/-- C8: each per-category threshold filter is idempotent — re-filtering
its own output yields the identical list. -/
theorem threshold_filters_idempotent (ws : List Wall) (rs : List Room)
    (cs : List Component) (ss : List Symbol) (ts : List TextItem) :
    filter_walls (filter_walls ws) = filter_walls ws ∧
    filter_rooms (filter_rooms rs) = filter_rooms rs ∧
    filter_components (filter_components cs) = filter_components cs ∧
    filter_symbols (filter_symbols ss) = filter_symbols ss ∧
    filter_texts (filter_texts ts) = filter_texts ts := by
  refine ⟨?_, ?_, ?_, ?_, ?_⟩ <;>
    simp [filter_walls_eq_filter, filter_rooms_eq_filter, filter_components_eq_filter,
      filter_symbols_eq_filter, filter_texts_eq_filter, List.filter_filter,
      Bool.and_self]

/-- C9: pages at an index beyond a category array's length are processed
with an empty list for that category (and the total function yields one
result per page), rather than erroring. -/
theorem pages_beyond_category_arrays_get_empty (req : FilterRequest) (i : Nat)
    (hi : i < req.pages.length) :
    (filter_data req).length = req.pages.length ∧
    (req.walls.length ≤ i →
      Option.map PageResult.walls (filter_data req)[i]? = some []) ∧
    (req.rooms.length ≤ i →
      Option.map PageResult.rooms (filter_data req)[i]? = some []) ∧
    (req.components.length ≤ i →
      Option.map PageResult.components (filter_data req)[i]? = some []) ∧
    (req.symbols.length ≤ i →
      Option.map PageResult.symbols (filter_data req)[i]? = some []) := by
  have h := filter_pages_short_arrays req req.pages 0 i hi
  simp only [Nat.zero_add] at h
  exact ⟨filter_pages_length req req.pages 0, h.1, h.2.1, h.2.2.1, h.2.2.2⟩

/-- Witness for C9: a 2-page request with a single entry in the walls
array — page 2 is processed with zero walls. -/
theorem pages_beyond_category_arrays_get_empty_witness :
    Option.map PageResult.walls (filter_data reqEx9)[1]? = some [] :=
  (pages_beyond_category_arrays_get_empty reqEx9 1 (by decide)).2.1 (by decide)

/-- C10: for a wall whose properties mapping is absent or empty the
length and thickness rules are skipped entirely — it survives iff its
type ≠ "unknown", even when its thickness field is present and below
`MIN_WALL_THICKNESS`; and a present thickness of exactly 0 never causes
rejection (survival then depends only on the type and length rules). -/
theorem wall_rules_skipped_without_truthy_properties (ws : List Wall) (w : Wall) :
    (dictTruthy w.properties = false →
      (w ∈ filter_walls ws ↔ w ∈ ws ∧ w.type ≠ "unknown")) ∧
    (w.thickness_meters = some 0 →
      (w ∈ filter_walls ws ↔ w ∈ ws ∧ w.type ≠ "unknown" ∧
        ¬(dictTruthy w.properties = true ∧ wall_length_getd w < MIN_WALL_LENGTH))) := by
  constructor
  · intro hd
    rw [filter_walls_eq_filter, List.mem_filter]
    constructor
    · rintro ⟨hmem, hk⟩
      simp only [wall_kept, decide_eq_true_eq] at hk
      exact ⟨hmem, hk.1⟩
    · rintro ⟨hmem, ht⟩
      refine ⟨hmem, ?_⟩
      simp only [wall_kept, decide_eq_true_eq]
      refine ⟨ht, ?_, ?_⟩ <;> rintro ⟨hdt, _⟩ <;> rw [hd] at hdt <;>
        exact Bool.false_ne_true hdt
  · intro ht0
    rw [filter_walls_eq_filter, List.mem_filter]
    constructor
    · rintro ⟨hmem, hk⟩
      simp only [wall_kept, decide_eq_true_eq] at hk
      exact ⟨hmem, hk.1, hk.2.1⟩
    · rintro ⟨hmem, h1, h2⟩
      refine ⟨hmem, ?_⟩
      simp only [wall_kept, decide_eq_true_eq]
      refine ⟨h1, h2, ?_⟩
      rintro ⟨hdt, htt⟩
      simp [thickness_too_thin, ht0] at htt

/-- Witness for C10: a thin-thickness wall with absent properties
survives, and a zero-thickness wall with passing length survives. -/
theorem wall_rules_skipped_without_truthy_properties_witness :
    wallEx3 ∈ filter_walls [wallEx3] ∧ wallEx10 ∈ filter_walls [wallEx10] := by
  constructor
  · exact ((wall_rules_skipped_without_truthy_properties [wallEx3] wallEx3).1
      (by decide)).2 ⟨by decide, by decide⟩
  · exact ((wall_rules_skipped_without_truthy_properties [wallEx10] wallEx10).2
      (by decide)).2 ⟨by decide, by decide, by decide⟩

end FilterApi
